import Mathlib

/-!
A shallow embedding of the orchestration core of firewall3 (`src/main.c`).

The orchestrator (`start`, `stop`, `restart`, the `main` dispatcher) drives
external collaborators: the statefile reader/writer, `iptables-restore` /
`ip6tables-restore` command pipes, the kernel table-capability probe and the
rule/zone emitters.  Those collaborators live outside `src/main.c`; their
observable behaviour is supplied by an `Env` oracle (what the statefile read
returns, which command pipes can be opened, which tables the kernel supports,
what each close reports), and every externally visible action performed by the
orchestrator is recorded in an ordered trace of `Event`s.  The control flow,
branch conditions and sequencing are translated line by line from `src/main.c`.
-/

namespace FW3

/-- `enum fw3_family` restricted to the two real families (`FW3_FAMILY_V4`,
`FW3_FAMILY_V6`); the `ANY` selector is modelled separately as `FamilySel`. -/
inductive Family
  | V4
  | V6
deriving DecidableEq, Repr

/-- `enum fw3_table`: the four tables, in the fixed declaration order of the
`tables[]` array in `src/main.c` (filter, nat, mangle, raw). -/
inductive Table
  | filter
  | nat
  | mangle
  | raw
deriving DecidableEq, Repr

/-- The `tables[]` iteration order of the C `for (table = FW3_TABLE_FILTER;
table <= FW3_TABLE_RAW; table++)` loops. -/
def TABLES : List Table := [Table.filter, Table.nat, Table.mangle, Table.raw]

/-- The kinds of statefile entries.  `family_running` in `src/main.c` only
distinguishes `FW3_TYPE_DEFAULTS` from everything else; the other kinds
(zones, ipsets) are opaque to the core. -/
inductive EntryType
  | defaults
  | zone
  | ipset
deriving DecidableEq, Repr

/-- Modelled from the spec: the two-bit family mask used both for
`state->defaults.has_flag` and for the `flags[0]` word of a statefile entry.
The bit constants `FW3_DEFAULT_IPV4_LOADED` / `FW3_DEFAULT_IPV6_LOADED` and
the `hasbit`/`setbit`/`delbit` macros live in headers outside `src/`; per the
spec this is "a small bitmask `active_families`" with one bit per family, so
it is modelled as a pair of booleans indexed by `Family`. -/
structure FamilyBits where
  v4 : Bool
  v6 : Bool
deriving DecidableEq, Repr

/-- `hasbit(field, family_flag(family))`. -/
def hasbit (bits : FamilyBits) : Family → Bool
  | Family.V4 => bits.v4
  | Family.V6 => bits.v6

/-- `setbit(field, family_flag(family))`. -/
def setbit (bits : FamilyBits) : Family → FamilyBits
  | Family.V4 => { bits with v4 := true }
  | Family.V6 => { bits with v6 := true }

/-- `delbit(field, family_flag(family))`. -/
def delbit (bits : FamilyBits) : Family → FamilyBits
  | Family.V4 => { bits with v4 := false }
  | Family.V6 => { bits with v6 := false }

/-- `struct fw3_statefile_entry`: the persisted record's typed entry.  Only
the entry kind and the family bits of `flags[0]` are consulted by the core. -/
structure StatefileEntry where
  type : EntryType
  flags0 : FamilyBits
deriving DecidableEq, Repr

/-- The loop body of `family_running`: walk the entry list, skip entries whose
type is not `FW3_TYPE_DEFAULTS`, and return the family bit of the first
defaults entry. -/
def family_running_entries : List StatefileEntry → Family → Bool
  | [], _ => false
  | e :: rest, family =>
      if e.type ≠ EntryType.defaults then family_running_entries rest family
      else hasbit e.flags0 family

/-- `family_running(statefile, family)` from `src/main.c`: `none` models a
NULL statefile (absent record), for which the function returns false. -/
def family_running (statefile : Option (List StatefileEntry)) (family : Family) :
    Bool :=
  match statefile with
  | some entries => family_running_entries entries family
  | none => false

/-- `static enum fw3_family use_family`: `FW3_FAMILY_ANY` or one concrete
family, set by the `-4` / `-6` command line flags. -/
inductive FamilySel
  | any
  | v4
  | v6
deriving DecidableEq, Repr

/-- The selector value equal to a given concrete family. -/
def famSel : Family → FamilySel
  | Family.V4 => FamilySel.v4
  | Family.V6 => FamilySel.v6

/-- `family_used(family)`: `use_family == FW3_FAMILY_ANY || use_family ==
family`. -/
def family_used (use_family : FamilySel) (f : Family) : Bool :=
  decide (use_family = FamilySel.any) || decide (use_family = famSel f)

/-- `family_loaded(state, family)`: tests `state->defaults.has_flag`. -/
def family_loaded (has_flag : FamilyBits) (family : Family) : Bool :=
  hasbit has_flag family

/-- `family_set(state, family, set)`: sets or clears the family's bit in
`state->defaults.has_flag`. -/
def family_set (has_flag : FamilyBits) (family : Family) (set : Bool) :
    FamilyBits :=
  if set then setbit has_flag family else delbit has_flag family

/-- The external commands the orchestrator opens pipes to:
`iptables-restore`/`ip6tables-restore` for a family, or `ipset`. -/
inductive PipeCmd
  | restore (family : Family)
  | ipset
deriving DecidableEq, Repr

/-- Results of the external collaborators, fixed for one run:
  * `statefile` — what `fw3_read_statefile()` returns (`none` = NULL);
  * `command_pipe_ok` — whether `fw3_command_pipe` succeeds for a command;
  * `stdout_pipe_ok` — the result of `fw3_stdout_pipe()` (print mode);
  * `has_table` — `fw3_has_table(family == FW3_FAMILY_V6, tables[table])`;
  * `close_ok` — the completion status reported by the n-th
    `fw3_command_close()` call of the run.  Modelled from the spec:
    `close() -> bool` "returns whether it exited successfully"; the utility
    itself lives outside `src/`, and `src/main.c` never consumes its value. -/
structure Env where
  statefile : Option (List StatefileEntry)
  command_pipe_ok : PipeCmd → Bool
  stdout_pipe_ok : Bool
  has_table : Bool → Table → Bool
  close_ok : Nat → Bool

/-- The eight per-table rule-group emitters invoked by `start`, in source
order. -/
inductive RuleGroup
  | default_chains
  | zone_chains
  | default_head_rules
  | rules
  | redirects
  | forwards
  | zone_rules
  | default_tail_rules
deriving DecidableEq, Repr

/-- One externally visible action of the orchestrator, in emission order:
pipe openings, rule text written through `fw3_pr` and the emitter
collaborators, teardown collaborator calls, ipset lifecycle calls, pipe
closes (recording the status the close reported), statefile writes and
warnings. -/
inductive Event
  | pipeOpen (cmd : PipeCmd) (silent : Bool)
  | stdoutOpen
  | warnEvt
  | prTable (t : Table)
  | prCommit
  | printGroup (g : RuleGroup) (t : Table) (f : Family)
  | flush_all (t : Table)
  | flush_rules (t : Table) (f : Family) (terminal : Bool)
  | flush_zones (t : Table) (f : Family) (terminal : Bool)
  | create_ipsets
  | destroy_ipsets
  | closeCmd (ok : Bool)
  | writeStatefile (bits : FamilyBits)
deriving DecidableEq, Repr

/-- The mutable per-run state threaded through the orchestrator:
`state->defaults.has_flag` plus the count of `fw3_command_close` calls made so
far (which indexes `Env.close_ok`). -/
structure RunSt where
  has_flag : FamilyBits
  closes : Nat
deriving DecidableEq, Repr

/-- Result of one orchestrator operation: the C `rv` (0 = success, 1 =
failure), the final run state, and the trace of emitted events. -/
structure Res where
  rv : Nat
  st : RunSt
  tr : List Event
deriving DecidableEq, Repr

/-- `restore_pipe(family, silent)` from `src/main.c`: in print mode return
`fw3_stdout_pipe()` (a local stream, no external process); otherwise attempt
`fw3_command_pipe(silent, cmd[family], "--lenient", "--noflush")`, warning on
failure.  Returns the success flag and the events of the attempt. -/
def restore_pipe (env : Env) (print_rules : Bool) (family : Family)
    (silent : Bool) : Bool × List Event :=
  if print_rules then
    (env.stdout_pipe_ok, [Event.stdoutOpen])
  else if env.command_pipe_ok (PipeCmd.restore family) then
    (true, [Event.pipeOpen (PipeCmd.restore family) silent])
  else
    (false, [Event.warnEvt])

/-- The body of `start`'s inner table loop for one supported table: the
table-select directive, the eight rule-group emitters in source order, and the
commit directive. -/
def print_table_events (t : Table) (f : Family) : List Event :=
  [Event.prTable t,
   Event.printGroup RuleGroup.default_chains t f,
   Event.printGroup RuleGroup.zone_chains t f,
   Event.printGroup RuleGroup.default_head_rules t f,
   Event.printGroup RuleGroup.rules t f,
   Event.printGroup RuleGroup.redirects t f,
   Event.printGroup RuleGroup.forwards t f,
   Event.printGroup RuleGroup.zone_rules t f,
   Event.printGroup RuleGroup.default_tail_rules t f,
   Event.prCommit]

/-- One iteration of `start`'s table loop: skip tables the kernel does not
support (`fw3_has_table`), otherwise emit the table block. -/
def start_table_block (env : Env) (f : Family) (t : Table) : List Event :=
  if env.has_table (decide (f = Family.V6)) t then print_table_events t f
  else []

/-- `start`'s table loop unrolled over the fixed order filter, nat, mangle,
raw. -/
def start_tables (env : Env) (f : Family) : List Event :=
  start_table_block env f Table.filter ++ start_table_block env f Table.nat ++
  start_table_block env f Table.mangle ++ start_table_block env f Table.raw

/-- One iteration of `start`'s family loop, translated from `src/main.c`:
skip unselected families, skip families not loaded per defaults, open the
restore pipe (skip on failure), apply the idempotency guard (warn and skip if
already running and not restarting), else emit all tables, close the pipe,
mark the family loaded and set `rv = 0`. -/
def start_family (env : Env) (use_family : FamilySel)
    (print_rules restart : Bool) (f : Family) (st : RunSt) (rv : Nat) : Res :=
  if !family_used use_family f then ⟨rv, st, []⟩
  else if !family_loaded st.has_flag f then ⟨rv, st, []⟩
  else if !(restore_pipe env print_rules f false).1 then
    ⟨rv, st, (restore_pipe env print_rules f false).2⟩
  else if !restart && family_running env.statefile f then
    ⟨rv, st, (restore_pipe env print_rules f false).2 ++ [Event.warnEvt]⟩
  else
    ⟨0,
     { has_flag := family_set st.has_flag f true, closes := st.closes + 1 },
     (restore_pipe env print_rules f false).2 ++ start_tables env f ++
       [Event.closeCmd (env.close_ok st.closes)]⟩

/-- `start(state, restart)` from `src/main.c`: optionally create the ipsets
through an `ipset` pipe (only when not printing and not restarting), run the
family loop over V4 then V6, and rewrite the statefile if `rv` ended up 0. -/
def start (env : Env) (use_family : FamilySel) (print_rules : Bool)
    (st0 : RunSt) (restart : Bool) : Res :=
  let ipset_ok := !print_rules && !restart && env.command_pipe_ok PipeCmd.ipset
  let st1 : RunSt := if ipset_ok then { st0 with closes := st0.closes + 1 }
                     else st0
  let ipsetEv : List Event :=
    if ipset_ok then
      [Event.pipeOpen PipeCmd.ipset false, Event.create_ipsets,
       Event.closeCmd (env.close_ok st0.closes)]
    else []
  let r4 := start_family env use_family print_rules restart Family.V4 st1 1
  let r6 := start_family env use_family print_rules restart Family.V6 r4.st r4.rv
  let finalEv : List Event :=
    if r6.rv = 0 then [Event.writeStatefile r6.st.has_flag] else []
  ⟨r6.rv, r6.st, ipsetEv ++ r4.tr ++ r6.tr ++ finalEv⟩

/-- The body of `stop`'s table loop for one supported table in `complete`
mode: table select, `fw3_flush_all(table)`, commit. -/
def stop_table_complete (t : Table) : List Event :=
  [Event.prTable t, Event.flush_all t, Event.prCommit]

/-- The body of `stop`'s table loop for one supported table in non-complete
mode: table select, then the two-pass teardown — pass 1 calls
`fw3_flush_rules` then `fw3_flush_zones` with the terminal flag false, pass 2
repeats both with the terminal flag true — then commit. -/
def stop_table_teardown (t : Table) (f : Family) : List Event :=
  [Event.prTable t,
   Event.flush_rules t f false, Event.flush_zones t f false,
   Event.flush_rules t f true, Event.flush_zones t f true,
   Event.prCommit]

/-- One iteration of `stop`'s table loop: skip unsupported tables, otherwise
emit the complete or two-pass block. -/
def stop_table_block (env : Env) (f : Family) (complete : Bool) (t : Table) :
    List Event :=
  if env.has_table (decide (f = Family.V6)) t then
    (if complete then stop_table_complete t else stop_table_teardown t f)
  else []

/-- `stop`'s table loop unrolled over the fixed order filter, nat, mangle,
raw. -/
def stop_tables (env : Env) (f : Family) (complete : Bool) : List Event :=
  stop_table_block env f complete Table.filter ++
  stop_table_block env f complete Table.nat ++
  stop_table_block env f complete Table.mangle ++
  stop_table_block env f complete Table.raw

/-- One iteration of `stop`'s family loop, translated from `src/main.c`:
skip families not recorded running (unless `complete`), skip unselected
families, open the restore pipe silently (skip on failure), emit the tables,
close the pipe, clear the family's bit unless restarting, set `rv = 0`. -/
def stop_family (env : Env) (use_family : FamilySel)
    (print_rules complete restart : Bool) (f : Family) (st : RunSt)
    (rv : Nat) : Res :=
  if !complete && !family_running env.statefile f then ⟨rv, st, []⟩
  else if !family_used use_family f then ⟨rv, st, []⟩
  else if !(restore_pipe env print_rules f true).1 then
    ⟨rv, st, (restore_pipe env print_rules f true).2⟩
  else
    ⟨0,
     { has_flag := if !restart then family_set st.has_flag f false
                   else st.has_flag,
       closes := st.closes + 1 },
     (restore_pipe env print_rules f true).2 ++ stop_tables env f complete ++
       [Event.closeCmd (env.close_ok st.closes)]⟩

/-- `stop(state, complete, restart)` from `src/main.c`: read the statefile
and return failure at once (warning unless restarting) when it is absent and
`complete` is false; otherwise run the family loop over V4 then V6, destroy
the recorded ipsets when not restarting and no family remains loaded, and
rewrite the statefile if `rv` ended up 0. -/
def stop (env : Env) (use_family : FamilySel) (print_rules : Bool)
    (st0 : RunSt) (complete restart : Bool) : Res :=
  match complete, env.statefile with
  | false, none =>
      ⟨1, st0, if !restart then [Event.warnEvt] else []⟩
  | complete, _ =>
      let r4 := stop_family env use_family print_rules complete restart
                  Family.V4 st0 1
      let r6 := stop_family env use_family print_rules complete restart
                  Family.V6 r4.st r4.rv
      let ipset_ok := !restart && !family_loaded r6.st.has_flag Family.V4 &&
        !family_loaded r6.st.has_flag Family.V6 &&
        env.command_pipe_ok PipeCmd.ipset
      let st3 : RunSt := if ipset_ok then { r6.st with closes := r6.st.closes + 1 }
                         else r6.st
      let ipsetEv : List Event :=
        if ipset_ok then
          [Event.pipeOpen PipeCmd.ipset false, Event.destroy_ipsets,
           Event.closeCmd (env.close_ok r6.st.closes)]
        else []
      let finalEv : List Event :=
        if r6.rv = 0 then [Event.writeStatefile st3.has_flag] else []
      ⟨r6.rv, st3, r4.tr ++ r6.tr ++ ipsetEv ++ finalEv⟩

/-- The `restart` branch of `main`: `rv = stop(state, false, true); rv =
start(state, !rv);` — start runs unconditionally, its restart argument is
whether stop returned 0. -/
def restart_run (env : Env) (use_family : FamilySel) (st0 : RunSt) : Res :=
  let r1 := stop env use_family false st0 false true
  let r2 := start env use_family false r1.st (decide (r1.rv = 0))
  ⟨r2.rv, r2.st, r1.tr ++ r2.tr⟩

/-- The five transition commands of the CLI dispatcher in `main`. -/
inductive Cmd
  | start
  | stop
  | flush
  | restart
  | print
deriving DecidableEq, Repr

/-- The command dispatch of `main` (`src/main.c` lines 425-450): `print` is
`start` with `print_rules` forced on (and warnings silenced, ipsets disabled —
both consumed only by collaborators), `flush` is `stop` with `complete`,
`restart` is the stop-then-start composition. -/
def dispatch (env : Env) (use_family : FamilySel) (st0 : RunSt) :
    Cmd → Res
  | Cmd.print => start env use_family true st0 false
  | Cmd.start => start env use_family false st0 false
  | Cmd.stop => stop env use_family false st0 false false
  | Cmd.flush => stop env use_family false st0 true false
  | Cmd.restart => restart_run env use_family st0

/-- Top-level events of `main`: the configuration load performed by
`build_state` (`uci_load` plus the six `fw3_load_*` collaborators), the
`fw3_lock()` attempt with its outcome, the selected command's operational
events, and the unconditional `fw3_unlock()` on the way out. -/
inductive TopEvent
  | configLoad
  | lockAttempt (ok : Bool)
  | op (e : Event)
  | unlock
deriving DecidableEq, Repr

/-- The run-wide inputs of `main`: the collaborator oracle, whether
`fw3_lock()` succeeds, and the family bits `fw3_load_defaults` leaves in
`state->defaults.has_flag`.  Modelled from the spec: the loader (outside
`src/`) initialises `active_families` to "which families (IPv4/IPv6) are
considered loaded/eligible" per the configuration, before any action. -/
structure MainEnv where
  env : Env
  lock_ok : Bool
  eligibility : FamilyBits

/-- `main` for a transition command, translated from `src/main.c`: connect,
`build_state()` (the configuration load), then `fw3_lock()` — on lock failure
jump to `out` (no transition runs), otherwise dispatch the command; `out`
frees the state and always calls `fw3_unlock()`.  Usage-error paths and the
lookup commands are not modelled. -/
def main_run (menv : MainEnv) (use_family : FamilySel) (cmd : Cmd) :
    Nat × List TopEvent :=
  if !menv.lock_ok then
    (1, [TopEvent.configLoad, TopEvent.lockAttempt false, TopEvent.unlock])
  else
    let st0 : RunSt := { has_flag := menv.eligibility, closes := 0 }
    let r := dispatch menv.env use_family st0 cmd
    (r.rv,
     TopEvent.configLoad :: TopEvent.lockAttempt true ::
       (r.tr.map TopEvent.op ++ [TopEvent.unlock]))

end FW3

namespace FW3

/-! ## Derived observations used by the verification -/

/-- Modelled from the spec: `fw3_write_statefile` "serializes the current
family-activity bits"; a subsequent read yields a Defaults-kind entry
carrying exactly those bits. -/
def write_entries (bits : FamilyBits) : List StatefileEntry :=
  [{ type := EntryType.defaults, flags0 := bits }]

/-- The persisted record as freshly re-read after an operation: both `start`
and `stop` rewrite it exactly when they return 0, with the final in-memory
family bits; otherwise the prior record is untouched. -/
def reread (env : Env) (r : Res) : Option (List StatefileEntry) :=
  if r.rv = 0 then some (write_entries r.st.has_flag) else env.statefile

/-- The subsequence of table-select directives (`fw3_pr("*%s\n", ...)`) of a
trace. -/
def selectSeq (tr : List Event) : List Table :=
  tr.filterMap (fun e => match e with | Event.prTable t => some t | _ => none)

/-- The tables the kernel supports for a family, in the fixed iteration
order. -/
def supportedTables (env : Env) (f : Family) : List Table :=
  TABLES.filter (fun t => env.has_table (decide (f = Family.V6)) t)

/-- `a` is emitted strictly before `b`: every occurrence of `a` in the trace
precedes every occurrence of `b`. -/
def precedes (l : List Event) (a b : Event) : Prop :=
  ∀ i j, l.get? i = some a → l.get? j = some b → i < j

/-- A collaborator oracle where every external call succeeds, the kernel
supports every table, and no statefile exists. -/
def envAllOk : Env :=
  { statefile := none
    command_pipe_ok := fun _ => true
    stdout_pipe_ok := true
    has_table := fun _ _ => true
    close_ok := fun _ => true }

/-- A run state with both families marked loaded/eligible and no close calls
made yet. -/
def stEligibleBoth : RunSt :=
  { has_flag := { v4 := true, v6 := true }, closes := 0 }

/-- `envAllOk`, except that every `fw3_command_close` reports failure. -/
def envAllCloseFail : Env := { envAllOk with close_ok := fun _ => false }

/-- The claim's reading of the family-active lookup: only the first
Defaults-kind entry of the ordered record decides; an absent record or a
record with no Defaults-kind entry gives false. -/
def first_defaults_lookup (statefile : Option (List StatefileEntry))
    (f : Family) : Bool :=
  match statefile with
  | none => false
  | some entries =>
      match entries.find? (fun e => decide (e.type = EntryType.defaults)) with
      | some e => hasbit e.flags0 f
      | none => false

/-! ## C10 -/

/-- C10: `family_running` inspects only the first Defaults-kind entry of the
ordered record and returns that entry's bit for the family; later
Defaults-kind entries are never examined, and the lookup returns false when
the record is absent or contains no Defaults-kind entry. -/
theorem family_running_first_defaults
    (sf : Option (List StatefileEntry)) (f : Family) :
    family_running sf f = first_defaults_lookup sf f := by
  cases sf with
  | none => rfl
  | some entries =>
      induction entries with
      | nil => rfl
      | cons e rest ih =>
          by_cases h : e.type = EntryType.defaults
          · simp [family_running, family_running_entries, first_defaults_lookup,
              List.find?, h]
          · simpa [family_running, family_running_entries, first_defaults_lookup,
              List.find?, h] using ih

/-! ## C7 -/

/-- C7: a non-complete `stop` with no persisted record performs no subprocess
writes — it opens no pipe, emits no directives, does not rewrite the
statefile or touch the run state — and returns failure; the only possible
trace entry is the diagnostic warning. -/
theorem stop_no_statefile_is_failure_noop (env : Env) (uf : FamilySel)
    (pr : Bool) (st : RunSt) (restart : Bool)
    (h : env.statefile = none) :
    (stop env uf pr st false restart).rv = 1 ∧
    (stop env uf pr st false restart).st = st ∧
    ∀ e ∈ (stop env uf pr st false restart).tr, e = Event.warnEvt := by
  refine ⟨by simp [stop, h], by simp [stop, h], ?_⟩
  simp only [stop, h]
  cases restart <;> simp

/-- Witness for C7 at a concrete input. -/
theorem stop_no_statefile_is_failure_noop_witness :
    envAllOk.statefile = none ∧
    ((stop envAllOk FamilySel.any false stEligibleBoth false false).rv = 1 ∧
     (stop envAllOk FamilySel.any false stEligibleBoth false false).st =
       stEligibleBoth ∧
     ∀ e ∈ (stop envAllOk FamilySel.any false stEligibleBoth false false).tr,
       e = Event.warnEvt) :=
  ⟨rfl, stop_no_statefile_is_failure_noop envAllOk FamilySel.any false
    stEligibleBoth false rfl⟩

/-! ## C6 -/

/-- Modelled from the spec: `restart(selectedFamilies)` =
`stop(selectedFamilies, complete=false, isRestart=true)` followed
unconditionally by `start(selectedFamilies, isRestart=<stop succeeded>)`. -/
def spec_restart (env : Env) (use_family : FamilySel) (st0 : RunSt) : Res :=
  let stopRes := stop env use_family false st0 false true
  let stopSucceeded : Bool := decide (stopRes.rv = 0)
  let startRes := start env use_family false stopRes.st stopSucceeded
  ⟨startRes.rv, startRes.st, stopRes.tr ++ startRes.tr⟩

/-- C6: the `restart` command is exactly stop with complete=false and
isRestart=true, followed unconditionally by start whose isRestart argument is
whether that stop succeeded; start runs even when stop failed. -/
theorem restart_is_stop_then_start (env : Env) (uf : FamilySel) (st0 : RunSt) :
    dispatch env uf st0 Cmd.restart = spec_restart env uf st0 := rfl

end FW3

namespace FW3

/-! ## C2 -/

/-- Recognizes the opening of an external process Sink at the `main` trace
level. -/
def isExternalOpenTop : TopEvent → Bool
  | TopEvent.op (Event.pipeOpen _ _) => true
  | _ => false

/-- Recognizes a rewrite of the persisted record at the `main` trace level. -/
def isStatefileWriteTop : TopEvent → Bool
  | TopEvent.op (Event.writeStatefile _) => true
  | _ => false

/-- C2, evaluated at the failing input: running the `print` command with an
all-successful environment, no statefile and both families eligible opens no
external process Sink — but it does mutate the persisted record: the run
succeeds and `fw3_write_statefile` is invoked, marking both families applied
although nothing was applied to the kernel. -/
theorem print_mode_writes_statefile :
    (main_run ⟨envAllOk, true, { v4 := true, v6 := true }⟩ FamilySel.any
        Cmd.print).1 = 0 ∧
    ((main_run ⟨envAllOk, true, { v4 := true, v6 := true }⟩ FamilySel.any
        Cmd.print).2.filter isExternalOpenTop) = [] ∧
    ((main_run ⟨envAllOk, true, { v4 := true, v6 := true }⟩ FamilySel.any
        Cmd.print).2.filter isStatefileWriteTop) =
      [TopEvent.op (Event.writeStatefile { v4 := true, v6 := true })] := by
  decide

/-! ## C1 -/

/-- C1 as stated is refuted at a concrete input: in a run whose every
`fw3_command_close` reports failure (the three closes of the run are the
ipset pipe and the two family pipes), the claim requires every family's
transition to remain incomplete and hence the run to fail; the code ignores
the close results, credits both families and returns success. -/
theorem start_credit_despite_close_failure :
    ¬ ((envAllCloseFail.close_ok 0 = false ∧ envAllCloseFail.close_ok 1 = false ∧
        envAllCloseFail.close_ok 2 = false) →
       (start envAllCloseFail FamilySel.any false stEligibleBoth false).rv ≠ 0) := by
  decide

/-- `restore_pipe` does not depend on the close results. -/
theorem restore_pipe_close_irrel (env : Env) (g : Nat → Bool)
    (pr : Bool) (f : Family) (s : Bool) :
    restore_pipe { env with close_ok := g } pr f s = restore_pipe env pr f s :=
  rfl

/-- `start_family` computes its result code and final state without
consulting the close results: only the recorded close status in the trace can
differ. -/
theorem start_family_close_irrel (env : Env) (g : Nat → Bool)
    (uf : FamilySel) (pr restart : Bool) (f : Family) (st : RunSt) (rv : Nat) :
    (start_family { env with close_ok := g } uf pr restart f st rv).rv =
      (start_family env uf pr restart f st rv).rv ∧
    (start_family { env with close_ok := g } uf pr restart f st rv).st =
      (start_family env uf pr restart f st rv).st := by
  simp only [start_family, restore_pipe_close_irrel]
  split_ifs <;> simp_all

/-- C1, amended: `start` marks a family Active and credits it toward success
once its Sink has been written and `fw3_command_close` has been invoked, but
the status that close reports is never consulted — the run's result code and
final family bits are identical under any assignment of close results. -/
theorem start_ignores_close_results (env : Env) (g : Nat → Bool)
    (uf : FamilySel) (pr : Bool) (st : RunSt) (restart : Bool) :
    (start { env with close_ok := g } uf pr st restart).rv =
      (start env uf pr st restart).rv ∧
    (start { env with close_ok := g } uf pr st restart).st =
      (start env uf pr st restart).st := by
  have h4 := start_family_close_irrel env g uf pr restart Family.V4
  have h6 := start_family_close_irrel env g uf pr restart Family.V6
  simp only [start]
  rw [(h4 _ _).1, (h4 _ _).2]
  rw [(h6 _ _).1, (h6 _ _).2]
  exact ⟨rfl, rfl⟩

end FW3

namespace FW3

/-! ## C3 -/

/-- A run environment whose `fw3_lock()` attempt fails. -/
def menvLockFail : MainEnv := ⟨envAllOk, false, { v4 := true, v6 := true }⟩

/-- A run environment whose lock succeeds, with every collaborator
successful. -/
def menvAllOk : MainEnv := ⟨envAllOk, true, { v4 := true, v6 := true }⟩

/-- C3 as stated is refuted at a concrete input: it requires every lock
attempt to precede every configuration load, but in every run — here a
`start` whose lock acquisition fails — `build_state()` (the configuration
load) happens at position 0, before the `fw3_lock()` attempt at position 1. -/
theorem config_load_precedes_lock :
    ¬ (∀ i j b,
        (main_run menvLockFail FamilySel.any Cmd.start).2.get? i =
          some TopEvent.configLoad →
        (main_run menvLockFail FamilySel.any Cmd.start).2.get? j =
          some (TopEvent.lockAttempt b) → j < i) :=
  fun h => absurd (h 0 1 false rfl rfl) (by decide)

/-- C3, amended: the Lock is acquired after the configuration load but before
any transition side effect: every operational event of a run (pipe opening,
rule emission, teardown call, statefile write, ...) requires that the lock
attempt succeeded, and is emitted strictly after the successful lock attempt;
in particular, when acquisition fails the run aborts with no side effect. -/
theorem ops_require_lock (menv : MainEnv) (uf : FamilySel) (cmd : Cmd)
    (i : Nat) (e : Event)
    (h : (main_run menv uf cmd).2.get? i = some (TopEvent.op e)) :
    menv.lock_ok = true ∧
    ∃ j, j < i ∧
      (main_run menv uf cmd).2.get? j = some (TopEvent.lockAttempt true) := by
  rcases hl : menv.lock_ok with _ | _
  · simp only [main_run, hl] at h
    rcases i with _ | _ | _ | i <;> simp_all
  · refine ⟨rfl, 1, ?_, ?_⟩
    · rcases i with _ | _ | i
      · simp [main_run, hl] at h
      · simp [main_run, hl] at h
      · omega
    · simp [main_run, hl]

/-- Witness for C3's amended theorem at a concrete input: in a successful
`start` run the first operational event (position 2, the ipset pipe opening)
is preceded by the successful lock attempt. -/
theorem ops_require_lock_witness :
    (main_run menvAllOk FamilySel.any Cmd.start).2.get? 2 =
      some (TopEvent.op (Event.pipeOpen PipeCmd.ipset false)) ∧
    (menvAllOk.lock_ok = true ∧
     ∃ j, j < 2 ∧
       (main_run menvAllOk FamilySel.any Cmd.start).2.get? j =
         some (TopEvent.lockAttempt true)) :=
  ⟨by decide,
   ops_require_lock menvAllOk FamilySel.any Cmd.start 2
     (Event.pipeOpen PipeCmd.ipset false) (by decide)⟩

end FW3

namespace FW3

/-! ## C4 -/

/-- The other family. -/
def otherFamily : Family → Family
  | Family.V4 => Family.V6
  | Family.V6 => Family.V4

/-- Reading back a written record yields exactly the written family bits. -/
theorem family_running_write (bits : FamilyBits) (f : Family) :
    family_running (some (write_entries bits)) f = hasbit bits f := by
  simp [family_running, write_entries, family_running_entries]

/-- Setting a family's bit makes that family's bit true. -/
theorem hasbit_family_set_true_self (bits : FamilyBits) (f : Family) :
    hasbit (family_set bits f true) f = true := by
  cases f <;> rfl

/-- Setting or clearing one family's bit leaves the other family's bit
unchanged. -/
theorem hasbit_family_set_other (bits : FamilyBits) (b : Bool) (f g : Family)
    (h : g ≠ f) : hasbit (family_set bits f b) g = hasbit bits g := by
  cases f <;> cases g <;> cases b <;>
    simp_all [family_set, hasbit, setbit, delbit]

/-- A family the selector excludes is skipped by `start`'s family loop with no
effect. -/
theorem start_family_not_used (env : Env) (uf : FamilySel)
    (pr restart : Bool) (f : Family) (st : RunSt) (rv : Nat)
    (h : family_used uf f = false) :
    start_family env uf pr restart f st rv = ⟨rv, st, []⟩ := by
  simp [start_family, h]

/-- When `start`'s family loop is entered with `rv = 1` and leaves with
`rv = 0`, the family took the success branch, so its bit was set. -/
theorem start_family_rv1_success (env : Env) (uf : FamilySel)
    (pr restart : Bool) (f : Family) (st : RunSt)
    (h : (start_family env uf pr restart f st 1).rv = 0) :
    (start_family env uf pr restart f st 1).st.has_flag =
      family_set st.has_flag f true := by
  simp only [start_family] at h ⊢
  split_ifs at h ⊢ <;> simp_all

/-- C4 as stated is refuted at a concrete input: with no prior record (both
families read as not applied) and both families eligible, a successful
`start` restricted to IPv4 writes the in-memory eligibility bits, so the
freshly re-read record marks IPv6 active although the record's contents
before the start did not. -/
theorem start_v4_flips_persisted_v6 :
    ¬ ((start envAllOk FamilySel.v4 false stEligibleBoth false).rv = 0 →
       (family_running
          (reread envAllOk
            (start envAllOk FamilySel.v4 false stEligibleBoth false))
          Family.V4 = true ∧
        family_running
          (reread envAllOk
            (start envAllOk FamilySel.v4 false stEligibleBoth false))
          Family.V6 = family_running envAllOk.statefile Family.V6)) := by
  decide

/-- C4, amended: after a successful `start` restricted to family F,
`isFamilyActive` on the freshly re-read persisted record is true for F, and
for the other family it equals that family's in-memory `active_families`
(eligibility) bit from before the start — which need not match the prior
record's contents. -/
theorem start_restricted_family_statefile (env : Env) (st : RunSt) (F : Family)
    (h : (start env (famSel F) false st false).rv = 0) :
    family_running (reread env (start env (famSel F) false st false)) F =
      true ∧
    family_running (reread env (start env (famSel F) false st false))
        (otherFamily F) = hasbit st.has_flag (otherFamily F) := by
  have hflag : (start env (famSel F) false st false).st.has_flag =
      family_set st.has_flag F true := by
    cases F with
    | V4 =>
        have hused : family_used (famSel Family.V4) Family.V6 = false := by
          decide
        simp only [start,
          start_family_not_used _ _ _ _ _ _ _ hused] at h ⊢
        rw [start_family_rv1_success _ _ _ _ _ _ h]
        congr 1
        split <;> rfl
    | V6 =>
        have hused : family_used (famSel Family.V6) Family.V4 = false := by
          decide
        simp only [start,
          start_family_not_used _ _ _ _ _ _ _ hused] at h ⊢
        rw [start_family_rv1_success _ _ _ _ _ _ h]
        congr 1
        split <;> rfl
  have h0 : reread env (start env (famSel F) false st false) =
      some (write_entries (start env (famSel F) false st false).st.has_flag) := by
    simp [reread, h]
  have hne : otherFamily F ≠ F := by cases F <;> decide
  rw [h0, hflag, family_running_write, family_running_write]
  exact ⟨hasbit_family_set_true_self st.has_flag F,
    hasbit_family_set_other st.has_flag true F (otherFamily F) hne⟩

/-- Witness for C4's amended theorem at a concrete input. -/
theorem start_restricted_family_statefile_witness :
    (start envAllOk (famSel Family.V4) false stEligibleBoth false).rv = 0 ∧
    (family_running
        (reread envAllOk
          (start envAllOk (famSel Family.V4) false stEligibleBoth false))
        Family.V4 = true ∧
     family_running
        (reread envAllOk
          (start envAllOk (famSel Family.V4) false stEligibleBoth false))
        (otherFamily Family.V4) =
       hasbit stEligibleBoth.has_flag (otherFamily Family.V4)) :=
  ⟨by decide,
   start_restricted_family_statefile envAllOk stEligibleBoth Family.V4
     (by decide)⟩

end FW3

namespace FW3

/-! ## C5 -/

/-- A persisted record marking only IPv6 applied. -/
def sfOnlyV6 : List StatefileEntry :=
  [{ type := EntryType.defaults, flags0 := { v4 := false, v6 := true } }]

/-- `envAllOk` with the only-IPv6 record persisted. -/
def envOnlyV6 : Env := { envAllOk with statefile := some sfOnlyV6 }

/-- A family the record does not mark running is skipped by a non-complete
`stop`'s family loop with no effect. -/
theorem stop_family_not_running (env : Env) (uf : FamilySel)
    (pr restart : Bool) (f : Family) (st : RunSt) (rv : Nat)
    (h : family_running env.statefile f = false) :
    stop_family env uf pr false restart f st rv = ⟨rv, st, []⟩ := by
  simp [stop_family, h]

/-- Under the IPv4-only selector, `stop`'s family loop skips IPv6 with no
effect (whether or not it is recorded running). -/
theorem stop_family_v6_not_used (env : Env) (pr restart : Bool)
    (st : RunSt) (rv : Nat) :
    stop_family env FamilySel.v4 pr false restart Family.V6 st rv =
      ⟨rv, st, []⟩ := by
  have h : family_used FamilySel.v4 Family.V6 = false := rfl
  simp [stop_family, h]

/-- C5 as stated is refuted at a concrete input: in the scenario — record
marks only IPv6 applied, `stop` invoked non-complete restricted to IPv4 —
the claim says a warning is emitted; the code emits nothing at all (the
stopped-firewall warning exists only on the absent-record path). -/
theorem stop_v4_inactive_no_warning :
    ¬ (Event.warnEvt ∈
        (stop envOnlyV6 FamilySel.v4 false stEligibleBoth false false).tr) := by
  decide

/-- C5, amended: with a persisted record present that does not mark IPv4
applied, a non-complete `stop` restricted to IPv4 (outside a restart, with at
least one family eligible in the loaded configuration) emits nothing — no
removal directive, no Sink opening and no warning — returns failure, leaves
the run state untouched and does not rewrite the persisted record, so the
IPv6 rules and the persisted IPv6 Active bit are untouched. -/
theorem stop_inactive_family_noop (env : Env) (st : RunSt)
    (sf : List StatefileEntry)
    (hsf : env.statefile = some sf)
    (hv4 : family_running_entries sf Family.V4 = false)
    (helig : family_loaded st.has_flag Family.V4 = true ∨
             family_loaded st.has_flag Family.V6 = true) :
    (stop env FamilySel.v4 false st false false).rv = 1 ∧
    (stop env FamilySel.v4 false st false false).tr = [] ∧
    (stop env FamilySel.v4 false st false false).st = st ∧
    reread env (stop env FamilySel.v4 false st false false) =
      env.statefile := by
  have hrun : family_running env.statefile Family.V4 = false := by
    rw [hsf]; exact hv4
  have hstop : stop env FamilySel.v4 false st false false = ⟨1, st, []⟩ := by
    simp only [stop, hsf]
    rw [stop_family_not_running _ _ _ _ _ _ _ hrun]
    rw [stop_family_v6_not_used]
    rcases helig with hl | hl <;> simp [hl]
  rw [hstop]
  refine ⟨rfl, rfl, rfl, ?_⟩
  simp [reread]

/-- Witness for C5's amended theorem at a concrete input. -/
theorem stop_inactive_family_noop_witness :
    (envOnlyV6.statefile = some sfOnlyV6 ∧
     family_running_entries sfOnlyV6 Family.V4 = false ∧
     family_loaded stEligibleBoth.has_flag Family.V4 = true) ∧
    ((stop envOnlyV6 FamilySel.v4 false stEligibleBoth false false).rv = 1 ∧
     (stop envOnlyV6 FamilySel.v4 false stEligibleBoth false false).tr = [] ∧
     (stop envOnlyV6 FamilySel.v4 false stEligibleBoth false false).st =
       stEligibleBoth ∧
     reread envOnlyV6
        (stop envOnlyV6 FamilySel.v4 false stEligibleBoth false false) =
       envOnlyV6.statefile) :=
  ⟨⟨rfl, by decide, by decide⟩,
   stop_inactive_family_noop envOnlyV6 stEligibleBoth sfOnlyV6 rfl
     (by decide) (Or.inl (by decide))⟩

end FW3

namespace FW3

/-! ## C8 -/

/-- `selectSeq` distributes over trace concatenation. -/
theorem selectSeq_append (l1 l2 : List Event) :
    selectSeq (l1 ++ l2) = selectSeq l1 ++ selectSeq l2 :=
  List.filterMap_append l1 l2 _

/-- `selectSeq` commutes with a conditional trace. -/
theorem selectSeq_ite (c : Prop) [Decidable c] (l1 l2 : List Event) :
    selectSeq (if c then l1 else l2) =
      if c then selectSeq l1 else selectSeq l2 :=
  apply_ite selectSeq c l1 l2

/-- A table block of `start` contributes exactly its own table-select
directive when supported, nothing otherwise. -/
theorem selectSeq_start_table_block (env : Env) (f : Family) (t : Table) :
    selectSeq (start_table_block env f t) =
      if env.has_table (decide (f = Family.V6)) t then [t] else [] := by
  simp only [start_table_block]
  split <;> simp [selectSeq, print_table_events, List.filterMap]

/-- The table loop of `start` emits exactly the supported subset of the four
tables, in the fixed order. -/
theorem selectSeq_start_tables (env : Env) (f : Family) :
    selectSeq (start_tables env f) = supportedTables env f := by
  simp only [start_tables, selectSeq_append, selectSeq_start_table_block,
    supportedTables, TABLES, List.filter_cons, List.filter_nil]
  split_ifs <;> simp_all

/-- `restore_pipe` emits no table-select directive. -/
theorem selectSeq_restore_pipe (env : Env) (pr : Bool) (f : Family)
    (s : Bool) : selectSeq (restore_pipe env pr f s).2 = [] := by
  simp only [restore_pipe]
  split_ifs <;> rfl

/-- One family of `start` contributes either its full supported table
sequence (success branch) or no table-select directive at all (any skip
branch). -/
theorem selectSeq_start_family (env : Env) (uf : FamilySel)
    (pr restart : Bool) (f : Family) (st : RunSt) (rv : Nat) :
    selectSeq (start_family env uf pr restart f st rv).tr =
      supportedTables env f ∨
    selectSeq (start_family env uf pr restart f st rv).tr = [] := by
  simp only [start_family]
  split_ifs
  · right; rfl
  · right; rfl
  · right; exact selectSeq_restore_pipe env pr f false
  · right
    rw [selectSeq_append, selectSeq_restore_pipe]
    rfl
  · left
    rw [selectSeq_append, selectSeq_append, selectSeq_restore_pipe,
      selectSeq_start_tables]
    simp [selectSeq, List.filterMap]

/-- The trace of `start` is the ipset prologue, the V4 family, the V6 family
and the statefile epilogue, for some intermediate state. -/
theorem start_tr_decomp (env : Env) (uf : FamilySel) (pr : Bool)
    (st : RunSt) (restart : Bool) :
    ∃ st1 : RunSt,
      selectSeq (start env uf pr st restart).tr =
        selectSeq (start_family env uf pr restart Family.V4 st1 1).tr ++
        selectSeq (start_family env uf pr restart Family.V6
          (start_family env uf pr restart Family.V4 st1 1).st
          (start_family env uf pr restart Family.V4 st1 1).rv).tr := by
  refine ⟨if !pr && !restart && env.command_pipe_ok PipeCmd.ipset then
    { st with closes := st.closes + 1 } else st, ?_⟩
  simp only [start, selectSeq_append, selectSeq_ite]
  split_ifs <;> simp [selectSeq]

/-- C8: in any successful `start`, the emitted sequence of table-select
directives is, for each processed family in order, exactly the
kernel-supported subset of [filter, nat, mangle, raw] in that fixed order —
no table reordered or repeated. -/
theorem start_table_selects_in_order (env : Env) (uf : FamilySel)
    (pr : Bool) (st : RunSt) (restart : Bool)
    (h : (start env uf pr st restart).rv = 0) :
    ∃ p4 p6 : Bool,
      selectSeq (start env uf pr st restart).tr =
        (if p4 then supportedTables env Family.V4 else []) ++
        (if p6 then supportedTables env Family.V6 else []) := by
  obtain ⟨st1, hd⟩ := start_tr_decomp env uf pr st restart
  rcases selectSeq_start_family env uf pr restart Family.V4 st1 1 with h4 | h4 <;>
    rcases selectSeq_start_family env uf pr restart Family.V6
      (start_family env uf pr restart Family.V4 st1 1).st
      (start_family env uf pr restart Family.V4 st1 1).rv with h6 | h6
  · exact ⟨true, true, by rw [hd, h4, h6]; simp⟩
  · exact ⟨true, false, by rw [hd, h4, h6]; simp⟩
  · exact ⟨false, true, by rw [hd, h4, h6]; simp⟩
  · exact ⟨false, false, by rw [hd, h4, h6]; simp⟩

/-- Witness for C8 at a concrete input: a successful unrestricted `start`
with every table supported. -/
theorem start_table_selects_in_order_witness :
    (start envAllOk FamilySel.any false stEligibleBoth false).rv = 0 ∧
    (∃ p4 p6 : Bool,
      selectSeq (start envAllOk FamilySel.any false stEligibleBoth false).tr =
        (if p4 then supportedTables envAllOk Family.V4 else []) ++
        (if p6 then supportedTables envAllOk Family.V6 else [])) :=
  ⟨by decide,
   start_table_selects_in_order envAllOk FamilySel.any false stEligibleBoth
     false (by decide)⟩

end FW3

namespace FW3

/-! ## C9 -/

/-- The teardown directives (rule-removal and zone-removal collaborator
calls) for a given table and family. -/
def isTeardownDir (t : Table) (f : Family) : Event → Bool
  | Event.flush_rules t' f' _ => decide (t' = t) && decide (f' = f)
  | Event.flush_zones t' f' _ => decide (t' = t) && decide (f' = f)
  | _ => false

/-- The two-pass teardown directive sequence for one table and family:
pass 1 (rules, zones, non-terminal), then pass 2 (rules, zones, terminal). -/
def tdList (t : Table) (f : Family) : List Event :=
  [Event.flush_rules t f false, Event.flush_zones t f false,
   Event.flush_rules t f true, Event.flush_zones t f true]

/-- `List.filter` commutes with a conditional trace. -/
theorem filter_ite (c : Prop) [Decidable c] (p : Event → Bool)
    (l1 l2 : List Event) :
    (if c then l1 else l2).filter p = if c then l1.filter p else l2.filter p :=
  apply_ite (List.filter p) c l1 l2

/-- If an event satisfying the filter never occurs, it precedes anything
vacuously. -/
theorem precedes_of_filter_nil (l : List Event) (p : Event → Bool)
    (a b : Event) (hpa : p a = true) (hf : l.filter p = []) :
    precedes l a b := by
  intro i j hi _
  exfalso
  have hmem : a ∈ l.filter p := List.mem_filter.mpr ⟨List.get?_mem hi, hpa⟩
  rw [hf] at hmem
  exact absurd hmem (List.not_mem_nil a)

/-- If filtering a trace yields exactly `[a, b]`, every occurrence of `a`
precedes every occurrence of `b`. -/
theorem precedes_of_filter_pair (l : List Event) (p : Event → Bool)
    (a b : Event) (hpa : p a = true) (hpb : p b = true) (hab : a ≠ b) :
    l.filter p = [a, b] → precedes l a b := by
  induction l with
  | nil => intro hf; simp at hf
  | cons x l ih =>
      intro hf i j hi hj
      cases hpx : p x with
      | false =>
          rw [List.filter_cons_of_neg (by simp [hpx])] at hf
          have hxa : x ≠ a := by
            intro hx; rw [hx, hpa] at hpx; exact Bool.noConfusion hpx
          have hxb : x ≠ b := by
            intro hx; rw [hx, hpb] at hpx; exact Bool.noConfusion hpx
          rcases i with _ | i <;> rcases j with _ | j <;>
            simp only [List.get?_cons_zero, List.get?_cons_succ,
              Option.some.injEq] at hi hj
          · exact absurd hi hxa
          · exact absurd hi hxa
          · exact absurd hj hxb
          · exact Nat.succ_lt_succ (ih hf i j hi hj)
      | true =>
          rw [List.filter_cons_of_pos (by simp [hpx])] at hf
          injection hf with hxa hfb
          rcases j with _ | j
          · simp only [List.get?_cons_zero, Option.some.injEq] at hj
            exact absurd (hxa.symm.trans hj) hab
          · rcases i with _ | i
            · exact Nat.succ_pos j
            · simp only [List.get?_cons_succ] at hi hj
              exfalso
              have hmem : a ∈ l.filter p :=
                List.mem_filter.mpr ⟨List.get?_mem hi, hpa⟩
              rw [hfb] at hmem
              simp only [List.mem_singleton] at hmem
              exact hab hmem

/-- Filtering by a finer predicate can be done after a coarser one. -/
theorem filter_sub (l : List Event) (p q : Event → Bool)
    (h : ∀ x, q x = true → p x = true) :
    (l.filter p).filter q = l.filter q := by
  induction l with
  | nil => rfl
  | cons x l ih =>
      cases hq : q x with
      | false =>
          cases hp : p x <;> simp [List.filter_cons, hp, hq, ih]
      | true =>
          have hp := h x hq
          simp [List.filter_cons, hp, hq, ih]

/-- `restore_pipe` emits no teardown directive. -/
theorem filter_restore_pipe (env : Env) (pr : Bool) (f : Family) (s : Bool)
    (t : Table) (f' : Family) :
    ((restore_pipe env pr f s).2).filter (isTeardownDir t f') = [] := by
  simp only [restore_pipe]
  split_ifs <;> rfl

/-- The teardown block of one table contains exactly its own four directives
in two-pass order. -/
theorem stop_table_teardown_filter_self (t : Table) (f : Family) :
    (stop_table_teardown t f).filter (isTeardownDir t f) = tdList t f := by
  simp [stop_table_teardown, isTeardownDir, tdList, List.filter_cons]

/-- The teardown block of another table or family contributes no directive
for the given table and family. -/
theorem stop_table_teardown_filter_ne (t t' : Table) (f f' : Family)
    (h : t' ≠ t ∨ f' ≠ f) :
    (stop_table_teardown t' f').filter (isTeardownDir t f) = [] := by
  rcases h with h | h <;>
    simp [stop_table_teardown, isTeardownDir, List.filter_cons, h]

/-- A non-complete table block of another table or family contributes no
directive for the given table and family. -/
theorem stop_table_block_filter_ne (env : Env) (f' f : Family)
    (t t' : Table) (h : t' ≠ t ∨ f' ≠ f) :
    (stop_table_block env f' false t').filter (isTeardownDir t f) = [] := by
  simp only [stop_table_block, Bool.false_eq_true, if_false, filter_ite,
    stop_table_teardown_filter_ne t t' f f' h, List.filter_nil, ite_self]

/-- A non-complete table block of the same table and family contributes its
two-pass directive list when the table is supported, nothing otherwise. -/
theorem stop_table_block_filter_self (env : Env) (f : Family) (t : Table) :
    (stop_table_block env f false t).filter (isTeardownDir t f) =
      if env.has_table (decide (f = Family.V6)) t then tdList t f else [] := by
  simp only [stop_table_block, Bool.false_eq_true, if_false, filter_ite,
    stop_table_teardown_filter_self, List.filter_nil]

/-- The whole non-complete table loop of family `f` contributes either
nothing (table unsupported) or exactly the two-pass list for the given
table. -/
theorem stop_tables_teardown_filter (env : Env) (f : Family) (t : Table) :
    (stop_tables env f false).filter (isTeardownDir t f) = [] ∨
    (stop_tables env f false).filter (isTeardownDir t f) = tdList t f := by
  cases t with
  | filter =>
      simp only [stop_tables, List.filter_append, stop_table_block_filter_self,
        stop_table_block_filter_ne env f f Table.filter Table.nat
          (Or.inl (by decide)),
        stop_table_block_filter_ne env f f Table.filter Table.mangle
          (Or.inl (by decide)),
        stop_table_block_filter_ne env f f Table.filter Table.raw
          (Or.inl (by decide)), List.append_nil]
      split_ifs <;> simp
  | nat =>
      simp only [stop_tables, List.filter_append, stop_table_block_filter_self,
        stop_table_block_filter_ne env f f Table.nat Table.filter
          (Or.inl (by decide)),
        stop_table_block_filter_ne env f f Table.nat Table.mangle
          (Or.inl (by decide)),
        stop_table_block_filter_ne env f f Table.nat Table.raw
          (Or.inl (by decide)), List.append_nil, List.nil_append]
      split_ifs <;> simp
  | mangle =>
      simp only [stop_tables, List.filter_append, stop_table_block_filter_self,
        stop_table_block_filter_ne env f f Table.mangle Table.filter
          (Or.inl (by decide)),
        stop_table_block_filter_ne env f f Table.mangle Table.nat
          (Or.inl (by decide)),
        stop_table_block_filter_ne env f f Table.mangle Table.raw
          (Or.inl (by decide)), List.append_nil, List.nil_append]
      split_ifs <;> simp
  | raw =>
      simp only [stop_tables, List.filter_append, stop_table_block_filter_self,
        stop_table_block_filter_ne env f f Table.raw Table.filter
          (Or.inl (by decide)),
        stop_table_block_filter_ne env f f Table.raw Table.nat
          (Or.inl (by decide)),
        stop_table_block_filter_ne env f f Table.raw Table.mangle
          (Or.inl (by decide)), List.append_nil, List.nil_append]
      split_ifs <;> simp

/-- The table loop of a different family contributes no directive for the
given family. -/
theorem stop_tables_filter_ne_family (env : Env) (f' f : Family) (t : Table)
    (h : f' ≠ f) :
    (stop_tables env f' false).filter (isTeardownDir t f) = [] := by
  simp only [stop_tables, List.filter_append,
    stop_table_block_filter_ne env f' f t Table.filter (Or.inr h),
    stop_table_block_filter_ne env f' f t Table.nat (Or.inr h),
    stop_table_block_filter_ne env f' f t Table.mangle (Or.inr h),
    stop_table_block_filter_ne env f' f t Table.raw (Or.inr h),
    List.append_nil]

/-- The family-loop iteration of a different family contributes no teardown
directive for the given family. -/
theorem stop_family_teardown_filter_ne (env : Env) (uf : FamilySel)
    (pr restart : Bool) (f' f : Family) (st : RunSt) (rv : Nat) (t : Table)
    (h : f' ≠ f) :
    ((stop_family env uf pr false restart f' st rv).tr).filter
        (isTeardownDir t f) = [] := by
  simp only [stop_family]
  split_ifs <;> dsimp only
  · rfl
  · rfl
  · exact filter_restore_pipe env pr f' true t f
  all_goals
    rw [List.filter_append, List.filter_append, filter_restore_pipe,
      stop_tables_filter_ne_family env f' f t h]
    rfl

/-- The family-loop iteration of the given family contributes either nothing
or exactly the two-pass list for the given table. -/
theorem stop_family_teardown_filter_self (env : Env) (uf : FamilySel)
    (pr restart : Bool) (f : Family) (st : RunSt) (rv : Nat) (t : Table) :
    ((stop_family env uf pr false restart f st rv).tr).filter
        (isTeardownDir t f) = [] ∨
    ((stop_family env uf pr false restart f st rv).tr).filter
        (isTeardownDir t f) = tdList t f := by
  simp only [stop_family]
  split_ifs <;> dsimp only
  · left; rfl
  · left; rfl
  · left; exact filter_restore_pipe env pr f true t f
  all_goals
    rw [List.filter_append, List.filter_append, filter_restore_pipe]
    rcases stop_tables_teardown_filter env f t with h | h <;> rw [h]
    · left; rfl
    · right; simp [isTeardownDir]

/-- Master characterization for C9: in the trace of any non-complete `stop`,
the subsequence of teardown directives for a given table and family is
either empty or exactly the two-pass list pass-1-rules, pass-1-zones,
pass-2-rules, pass-2-zones. -/
theorem stop_teardown_filter (env : Env) (uf : FamilySel) (pr : Bool)
    (st : RunSt) (restart : Bool) (t : Table) (f : Family) :
    ((stop env uf pr st false restart).tr).filter (isTeardownDir t f) = [] ∨
    ((stop env uf pr st false restart).tr).filter (isTeardownDir t f) =
      tdList t f := by
  rcases hsf : env.statefile with _ | sf
  · left
    simp only [stop, hsf]
    cases restart <;> rfl
  · simp only [stop, hsf]
    rw [List.filter_append, List.filter_append, List.filter_append]
    have hips : ∀ (c : Prop) (inst : Decidable c) (b : Bool),
        (if c then [Event.pipeOpen PipeCmd.ipset false, Event.destroy_ipsets,
          Event.closeCmd b] else []).filter (isTeardownDir t f) = [] := by
      intro c inst b
      split <;> rfl
    have hfin : ∀ (c : Prop) (inst : Decidable c) (bits : FamilyBits),
        (if c then [Event.writeStatefile bits] else []).filter
          (isTeardownDir t f) = [] := by
      intro c inst bits
      split <;> rfl
    rw [hips, hfin, List.append_nil, List.append_nil]
    cases f with
    | V4 =>
        rw [stop_family_teardown_filter_ne env uf pr restart Family.V6
          Family.V4 _ _ t (by decide), List.append_nil]
        exact stop_family_teardown_filter_self env uf pr restart Family.V4
          st 1 t
    | V6 =>
        rw [stop_family_teardown_filter_ne env uf pr restart Family.V4
          Family.V6 st 1 t (by decide), List.nil_append]
        exact stop_family_teardown_filter_self env uf pr restart Family.V6
          _ _ t

/-- Lifts the master characterization to an ordering statement for one pair
of teardown directives. -/
theorem stop_teardown_pair (env : Env) (uf : FamilySel) (pr : Bool)
    (st : RunSt) (restart : Bool) (t : Table) (f : Family) (a b : Event)
    (hab : a ≠ b) (hpa : isTeardownDir t f a = true)
    (hpb : isTeardownDir t f b = true)
    (hfilter : (tdList t f).filter
      (fun e => decide (e = a) || decide (e = b)) = [a, b]) :
    precedes (stop env uf pr st false restart).tr a b := by
  rcases stop_teardown_filter env uf pr st restart t f with h | h
  · exact precedes_of_filter_nil _ _ a b hpa h
  · have hsub : ∀ x, (decide (x = a) || decide (x = b)) = true →
        isTeardownDir t f x = true := by
      intro x hx
      simp only [Bool.or_eq_true, decide_eq_true_eq] at hx
      rcases hx with hx | hx <;> rw [hx]
      · exact hpa
      · exact hpb
    have h2 : ((stop env uf pr st false restart).tr).filter
        (fun e => decide (e = a) || decide (e = b)) = [a, b] := by
      rw [← filter_sub _ (isTeardownDir t f) _ hsub, h, hfilter]
    exact precedes_of_filter_pair _ _ a b (by simp) (by simp) hab h2

end FW3

namespace FW3

/-- A persisted record marking both families applied. -/
def sfBothRun : List StatefileEntry :=
  [{ type := EntryType.defaults, flags0 := { v4 := true, v6 := true } }]

/-- `envAllOk` with the both-families record persisted. -/
def envBothRun : Env := { envAllOk with statefile := some sfBothRun }

/-- C9 as stated is refuted at a concrete input: with both families recorded
running and every table supported, a non-complete `stop` emits IPv4's pass-2
directive for the filter table (position 4) before IPv6's pass-1 directive
for the same table (position 28), because the two families are torn down one
after the other; matching directives by table alone, a pass-1 directive for
filter is emitted after a pass-2 directive for filter. -/
theorem pass1_after_pass2_across_families :
    ¬ (∀ (f1 f2 : Family) (i j : Nat),
        (stop envBothRun FamilySel.any false stEligibleBoth
            false false).tr.get? i =
          some (Event.flush_rules Table.filter f1 false) →
        (stop envBothRun FamilySel.any false stEligibleBoth
            false false).tr.get? j =
          some (Event.flush_rules Table.filter f2 true) → i < j) :=
  fun h =>
    absurd (h Family.V6 Family.V4 28 4 (by decide) (by decide)) (by decide)

/-- C9, amended: within each family of a non-complete `stop` and for every
table T, every pass-2 removal directive for T (terminal flag true) is
emitted strictly after every pass-1 removal directive for T (terminal flag
false), with the rules collaborator invoked before the zones collaborator
within each pass; across the two families the same table is torn down once
per family, so the per-table guarantee holds per family, not globally. -/
theorem stop_two_pass_per_family (env : Env) (uf : FamilySel) (pr : Bool)
    (st : RunSt) (restart : Bool) (t : Table) (f : Family) :
    precedes (stop env uf pr st false restart).tr
      (Event.flush_rules t f false) (Event.flush_zones t f false) ∧
    precedes (stop env uf pr st false restart).tr
      (Event.flush_rules t f false) (Event.flush_rules t f true) ∧
    precedes (stop env uf pr st false restart).tr
      (Event.flush_rules t f false) (Event.flush_zones t f true) ∧
    precedes (stop env uf pr st false restart).tr
      (Event.flush_zones t f false) (Event.flush_rules t f true) ∧
    precedes (stop env uf pr st false restart).tr
      (Event.flush_zones t f false) (Event.flush_zones t f true) ∧
    precedes (stop env uf pr st false restart).tr
      (Event.flush_rules t f true) (Event.flush_zones t f true) := by
  refine ⟨?_, ?_, ?_, ?_, ?_, ?_⟩ <;>
    apply stop_teardown_pair env uf pr st restart t f <;>
      simp [isTeardownDir, tdList, List.filter_cons]

/-- Witness for C9's amended theorem at a concrete input: both families
running, full teardown. -/
theorem stop_two_pass_per_family_witness :
    precedes (stop envBothRun FamilySel.any false stEligibleBoth
        false false).tr
      (Event.flush_rules Table.filter Family.V4 false)
      (Event.flush_zones Table.filter Family.V4 false) ∧
    precedes (stop envBothRun FamilySel.any false stEligibleBoth
        false false).tr
      (Event.flush_rules Table.filter Family.V4 false)
      (Event.flush_rules Table.filter Family.V4 true) ∧
    precedes (stop envBothRun FamilySel.any false stEligibleBoth
        false false).tr
      (Event.flush_rules Table.filter Family.V4 false)
      (Event.flush_zones Table.filter Family.V4 true) ∧
    precedes (stop envBothRun FamilySel.any false stEligibleBoth
        false false).tr
      (Event.flush_zones Table.filter Family.V4 false)
      (Event.flush_rules Table.filter Family.V4 true) ∧
    precedes (stop envBothRun FamilySel.any false stEligibleBoth
        false false).tr
      (Event.flush_zones Table.filter Family.V4 false)
      (Event.flush_zones Table.filter Family.V4 true) ∧
    precedes (stop envBothRun FamilySel.any false stEligibleBoth
        false false).tr
      (Event.flush_rules Table.filter Family.V4 true)
      (Event.flush_zones Table.filter Family.V4 true) :=
  stop_two_pass_per_family envBothRun FamilySel.any false stEligibleBoth
    false Table.filter Family.V4

end FW3
